import Mathlib

/-!
Verification development for the o2-cli-bot trading execution pipeline.

Shallow embedding of the core components — precision math, the order
lifecycle manager's fill dedup, the session authority's nonce recovery,
the strategy executor's cycle, and the cycle scheduler — with theorems
checking the specified behaviour against the embedded code.

Prices and quantities are embedded as exact rationals (the source uses
decimal.js arbitrary-precision decimals); scaled integer amounts are
rationals that happen to be integral.  JS truthiness of optional numeric
fields is embedded as `Option ℚ` with the zero-is-falsy checks made
explicit where the source relies on them.
-/

namespace O2Bot

/-! ## Market descriptor (src/types/market.ts, fields used by the core) -/

structure Market where
  baseDecimals : ℕ
  quoteDecimals : ℕ
  quoteMaxPrecision : Option ℤ
  baseMaxPrecision : Option ℕ
  /-- `step_size`, absent or empty string becomes `none`. -/
  stepSize : Option ℚ
  /-- `tick_size`, absent or empty string becomes `none`. -/
  tickSize : Option ℚ
  deriving Repr, DecidableEq

/-! ## Precision math (src/utils/price-math.ts) -/

/-- Fallback branch of `roundDownToMarketPrecision`: truncate to
`base.max_precision ?? Math.min(base.decimals, 6)` decimal places. -/
def roundDownByPrecision (quantity : ℚ) (market : Market) : ℚ :=
  let maxPrecision := market.baseMaxPrecision.getD (min market.baseDecimals 6)
  let multiplier : ℚ := (10 : ℚ) ^ maxPrecision
  (⌊quantity * multiplier⌋ : ℚ) / multiplier

/-- `roundDownToMarketPrecision(quantity, market)`: floor to the market's
step size when present and non-zero, otherwise truncate to the maximum
base precision. -/
def roundDownToMarketPrecision (quantity : ℚ) (market : Market) : ℚ :=
  match market.stepSize with
  | some stepSize =>
      if stepSize ≠ 0 then (⌊quantity / stepSize⌋ : ℚ) * stepSize
      else roundDownByPrecision quantity market
  | none => roundDownByPrecision quantity market

/-- Branch of `scaleUpAndTruncateToInt` taken when no usable tick size
is given: truncate `amount * 10^decimals` keeping `maxPrecision`
(defaulting to `decimals`) significant decimal places. -/
def scaleUpTruncNoTick (amount : ℚ) (decimals : ℕ)
    (maxPrecision : Option ℤ) : ℚ :=
  let effectivePrecision : ℤ :=
    match maxPrecision with
    | some p => if 0 ≤ p then p else (decimals : ℤ)
    | none => (decimals : ℤ)
  let priceInt := amount * (10 : ℚ) ^ decimals
  let truncateFactor : ℚ := (10 : ℚ) ^ ((decimals : ℤ) - effectivePrecision)
  if truncateFactor ≤ 1 then (⌊priceInt⌋ : ℚ)
  else (⌊priceInt / truncateFactor⌋ : ℚ) * truncateFactor

/-- `scaleUpAndTruncateToInt(amount, decimals, maxPrecision, tickSize)`:
scale a human price by `10^decimals` and truncate to tick size or to the
maximum precision. -/
def scaleUpAndTruncateToInt (amount : ℚ) (decimals : ℕ)
    (maxPrecision : Option ℤ) (tickSize : Option ℚ) : ℚ :=
  match tickSize with
  | some tickSizeDecimal =>
      if tickSizeDecimal ≠ 0 then
        let tickAlignedPrice := (⌊amount / tickSizeDecimal⌋ : ℚ) * tickSizeDecimal
        (⌊tickAlignedPrice * (10 : ℚ) ^ decimals⌋ : ℚ)
      else scaleUpTruncNoTick amount decimals maxPrecision
  | none => scaleUpTruncNoTick amount decimals maxPrecision

/-- `isValidPrice(price)`: positive, finite, not NaN — in ℚ simply
positivity. -/
def isValidPrice (price : ℚ) : Bool :=
  decide (0 < price)

/-! ## Order lifecycle manager (src/engine/order-manager.ts) -/

/-- A session action as assembled by the order manager.  Account and
order identifiers are numbers standing for the B256 strings of the
source; prices and quantities are the scaled integer strings. -/
inductive SessionAction where
  | SettleBalance (toContractId : ℕ)
  | CreateOrder (side : String) (orderType : String) (price : ℚ) (quantity : ℚ)
  | CancelOrder (orderId : ℕ)
  deriving Repr, DecidableEq

/-- The submission issued by `OrderManager.placeOrder`: the market and
the ordered action list handed to `SessionManager.submitActions`. -/
structure PlaceOrderCall where
  marketId : ℕ
  actions : List SessionAction
  deriving Repr, DecidableEq

/-- `OrderManager.placeOrder(market, side, orderType, priceScaled,
quantityScaled)`: wraps the create-order intent in a `SettleBalance`
sandwich addressed to the trade account and submits it for the market. -/
def placeOrder (tradeAccountId : ℕ) (marketId : ℕ) (side : String)
    (orderType : String) (priceScaled : ℚ) (quantityScaled : ℚ) :
    PlaceOrderCall :=
  { marketId := marketId
    actions :=
      [ SessionAction.SettleBalance tradeAccountId,
        SessionAction.CreateOrder side orderType priceScaled quantityScaled,
        SessionAction.SettleBalance tradeAccountId ] }

/-- One order update as delivered by the push feed or by polling.
`quantity_fill` is the parsed cumulative filled quantity
(`parseFloat(order.quantity_fill || '0')`), `price_fill` the optional
fill price falling back to `price`. -/
structure OrderUpdate where
  order_id : ℕ
  close : Bool
  partially_filled : Bool
  quantity_fill : ℚ
  price_fill : Option ℚ
  price : ℚ
  side : String
  deriving Repr, DecidableEq

/-- A fill event emitted by the order manager. -/
structure FillEvent where
  orderId : ℕ
  side : String
  price : ℚ
  sizeBase : ℚ
  deriving Repr, DecidableEq

/-- The `previousFilledQty` map: order id → last-observed cumulative
filled quantity, embedded as an association list. -/
def FillMap := List (ℕ × ℚ)

/-- Lookup in `previousFilledQty` with the source's `?? 0` default. -/
def FillMap.getQty : FillMap → ℕ → ℚ
  | [], _ => 0
  | (k, v) :: rest, orderId =>
      if k = orderId then v else FillMap.getQty rest orderId

/-- `previousFilledQty.set(orderId, qty)`: overwrite or insert. -/
def FillMap.setQty : FillMap → ℕ → ℚ → FillMap
  | [], orderId, qty => [(orderId, qty)]
  | (k, v) :: rest, orderId, qty =>
      if k = orderId then (orderId, qty) :: rest
      else (k, v) :: FillMap.setQty rest orderId qty

/-- Side normalization in `handleOrderUpdates`. -/
def normalizeSide (side : String) : String :=
  if side = "buy" ∨ side = "Buy" then "Buy" else "Sell"

/-- The body of `OrderManager.handleOrderUpdates` for a single update:
returns the updated `previousFilledQty` map and the fill event emitted,
if any. -/
def processOrderUpdate (m : FillMap) (order : OrderUpdate) :
    FillMap × Option FillEvent :=
  let isFilled := order.close
  let isPartiallyFilled := order.partially_filled
  if ¬isFilled ∧ ¬isPartiallyFilled then (m, none)
  else
    let cumulativeFilledQty := order.quantity_fill
    if cumulativeFilledQty ≤ 0 then (m, none)
    else
      let previousQty := m.getQty order.order_id
      let incrementalQty := cumulativeFilledQty - previousQty
      if incrementalQty ≤ 0 then (m, none)
      else
        let m' := m.setQty order.order_id cumulativeFilledQty
        let fillPrice := order.price_fill.getD order.price
        (m', some { orderId := order.order_id
                    side := normalizeSide order.side
                    price := fillPrice
                    sizeBase := incrementalQty })

/-- `OrderManager.handleOrderUpdates(orders)`: fold the per-update body
over the delivered batch, collecting the emitted fill events in order. -/
def handleOrderUpdates (m : FillMap) : List OrderUpdate → FillMap × List FillEvent
  | [] => (m, [])
  | order :: rest =>
      let step := processOrderUpdate m order
      let tail := handleOrderUpdates step.1 rest
      (tail.1, match step.2 with
               | some fill => fill :: tail.2
               | none => tail.2)

/-- `OrderManager.seedFillTracker`: pre-populate `previousFilledQty`
from recent orders, keeping only strictly positive filled quantities. -/
def seedFillTracker (m : FillMap) : List (ℕ × ℚ) → FillMap
  | [] => m
  | (orderId, filledQty) :: rest =>
      if 0 < filledQty then seedFillTracker (m.setQty orderId filledQty) rest
      else seedFillTracker m rest

/-! ## Session authority (src/auth/session-manager.ts)

`submitActionsImpl`'s error handling is driven by text tests on the
stringified error body.  The embedding captures each test's result as a
field of `SubmitError`:
  - `incrementNonceEvent`: the `N` of a matched
    `IncrementNonceEvent { nonce: N }`;
  - `dbNonceHint`: the `N` of a matched `nonce in the database(N)`;
  - `mentionsNonce`: `errStr.includes('nonce') || errStr.includes('Nonce')`;
  - `hasInvalidSession`: `errStr.includes('Invalid session')`;
  - `hasInvalidSessionAddress`: `errStr.includes('Invalid session address')`.
For a real string the last implies the one before it; theorems carry
that as a hypothesis where it matters. -/

structure SubmitError where
  incrementNonceEvent : Option ℕ
  dbNonceHint : Option ℕ
  mentionsNonce : Bool
  hasInvalidSession : Bool
  hasInvalidSessionAddress : Bool
  deriving Repr, DecidableEq

/-- Outcome of one POST of the signed payload to the venue. -/
inductive AttemptOutcome where
  | success
  | failure (e : SubmitError)
  deriving Repr, DecidableEq

/-- The venue's behaviour across the (at most two) attempts of one
logical submission, plus what `fetchNonce` would observe during each
failure handling (`none` = the fetch fails or returns no nonce, leaving
the counter unchanged). -/
structure SubmitEnv where
  outcome1 : AttemptOutcome
  outcome2 : AttemptOutcome
  fetched1 : Option ℕ
  fetched2 : Option ℕ
  deriving Repr, DecidableEq

/-- Trace of one logical submission: whether it ultimately succeeded,
the error it threw if not, the nonce after it, the nonce used to sign
each attempt in order, and whether `sessionInvalid` was emitted. -/
structure SubmitTrace where
  ok : Bool
  thrown : Option SubmitError
  finalNonce : ℕ
  attemptNonces : List ℕ
  sessionInvalidEmitted : Bool
  deriving Repr, DecidableEq

/-- Nonce recovery of `submitActionsImpl`'s catch block, in priority
order: chain-recorded `IncrementNonceEvent`, then the database-nonce
hint, then the venue query (which on failure leaves the nonce alone). -/
def recoverNonce (nonce : ℕ) (e : SubmitError) (fetched : Option ℕ) : ℕ :=
  match e.incrementNonceEvent with
  | some n => n
  | none =>
      match e.dbNonceHint with
      | some n => n
      | none => fetched.getD nonce

/-- The retry invocation `submitActionsImpl(..., isRetry = true)`:
success increments the nonce; failure re-runs nonce recovery but never
retries again and never emits `sessionInvalid` (both guards require
`!isRetry`), so the error is thrown to the caller. -/
def submitActionsRetry (nonce : ℕ) (env : SubmitEnv) : SubmitTrace :=
  match env.outcome2 with
  | AttemptOutcome.success =>
      { ok := true, thrown := none, finalNonce := nonce + 1
        attemptNonces := [nonce], sessionInvalidEmitted := false }
  | AttemptOutcome.failure e =>
      { ok := false, thrown := some e
        finalNonce := recoverNonce nonce e env.fetched2
        attemptNonces := [nonce], sessionInvalidEmitted := false }

/-- `submitActionsImpl(..., isRetry = false)`: sign with the current
nonce and POST; on success increment the nonce; on failure recover the
nonce in priority order, then retry exactly once if the error text
mentions a nonce and not an invalid session, otherwise emit
`sessionInvalid` when the text names an invalid session address and
rethrow. -/
def submitActionsImpl (nonce : ℕ) (env : SubmitEnv) : SubmitTrace :=
  match env.outcome1 with
  | AttemptOutcome.success =>
      { ok := true, thrown := none, finalNonce := nonce + 1
        attemptNonces := [nonce], sessionInvalidEmitted := false }
  | AttemptOutcome.failure e =>
      let nonceRecovered := recoverNonce nonce e env.fetched1
      if e.mentionsNonce ∧ ¬e.hasInvalidSession then
        let retry := submitActionsRetry nonceRecovered env
        { retry with attemptNonces := nonce :: retry.attemptNonces }
      else
        { ok := false, thrown := some e, finalNonce := nonceRecovered
          attemptNonces := [nonce]
          sessionInvalidEmitted := e.hasInvalidSessionAddress }

/-! ## Cycle scheduler (src/engine/trading-engine.ts) -/

/-- One entry of the engine's `schedules` map as read by
`scheduleNext`. -/
structure MarketSchedule where
  marketId : ℕ
  isActive : Bool
  nextRunAt : ℚ
  deriving Repr, DecidableEq

/-- The loop of `scheduleNext` that finds the earliest due active
market: scan in insertion order, replacing the candidate only on a
strictly smaller `nextRunAt` (so the earliest map entry wins ties). -/
def findEarliestAux (earliest : Option MarketSchedule) :
    List MarketSchedule → Option MarketSchedule
  | [] => earliest
  | schedule :: rest =>
      if ¬schedule.isActive then findEarliestAux earliest rest
      else
        match earliest with
        | none => findEarliestAux (some schedule) rest
        | some best =>
            if schedule.nextRunAt < best.nextRunAt then
              findEarliestAux (some schedule) rest
            else findEarliestAux (some best) rest

/-- Entry point of the scan with no candidate yet. -/
def findEarliest (schedules : List MarketSchedule) : Option MarketSchedule :=
  findEarliestAux none schedules

/-- What `scheduleNext` arms next: a 1-second idle re-check when no
market is active, or a timer dispatching the given market after
`max 0 (nextRunAt - now)` milliseconds. -/
inductive ScheduleDecision where
  | idle (delayMs : ℚ)
  | dispatch (marketId : ℕ) (delayMs : ℚ)
  deriving Repr, DecidableEq

/-- `TradingEngine.scheduleNext`: pick the active market with the
smallest `nextRunAt` (ties to the earlier map entry) or idle for 1s. -/
def scheduleNext (schedules : List MarketSchedule) (now : ℚ) :
    ScheduleDecision :=
  match findEarliest schedules with
  | none => ScheduleDecision.idle 1000
  | some earliest =>
      ScheduleDecision.dispatch earliest.marketId (max 0 (earliest.nextRunAt - now))

/-- `TradingEngine.calculateNextRun` (and the identical formula at the
top of `StrategyExecutor.execute`): `now + min + random * (max - min)`
with `random` the `Math.random()` draw in `[0, 1)`. -/
def calculateNextRun (now cycleIntervalMinMs cycleIntervalMaxMs random : ℚ) : ℚ :=
  now + cycleIntervalMinMs + random * (cycleIntervalMaxMs - cycleIntervalMinMs)

/-! ## Strategy decision engine (src/engine/strategy-executor.ts)

Configuration structures carry the fields the executor reads.  Optional
numeric fields whose JS truthiness the source tests are `Option ℚ`
(`none` = absent), with explicit zero checks where the source's
truthiness test also rejects `0`.  The runtime-tracked
`averageBuyPrice` string is `Option ℚ` (`none` = absent or empty), and
the source's `!== '0'` guard becomes a `≠ 0` test on the value. -/

structure OrderConfig where
  side : String
  orderType : String
  priceMode : String
  priceOffsetPercent : ℚ
  priceRandomizationEnabled : Bool
  priceRandomizationRangePercent : Option ℚ
  maxSpreadPercent : ℚ
  deriving Repr, DecidableEq

structure PositionSizing where
  sizeMode : String
  fixedUsdAmount : Option ℚ
  maxOrderSizeUsd : Option ℚ
  balancePercentage : ℚ
  quoteBalancePercentage : Option ℚ
  baseBalancePercentage : Option ℚ
  minOrderSizeUsd : ℚ
  deriving Repr, DecidableEq

structure OrderManagement where
  maxOpenOrders : ℕ
  onlySellAboveBuyPrice : Bool
  deriving Repr, DecidableEq

structure RiskManagement where
  stopLossEnabled : Bool
  stopLossPercent : ℚ
  takeProfitPercent : Option ℚ
  orderTimeoutEnabled : Bool
  orderTimeoutMinutes : ℚ
  maxSessionLossEnabled : Bool
  maxSessionLossUsd : ℚ
  deriving Repr, DecidableEq

structure Timing where
  cycleIntervalMinMs : ℚ
  cycleIntervalMaxMs : ℚ
  deriving Repr, DecidableEq

structure StrategyConfig where
  orderConfig : OrderConfig
  positionSizing : PositionSizing
  orderManagement : OrderManagement
  riskManagement : RiskManagement
  timing : Timing
  averageBuyPrice : Option ℚ
  deriving Repr, DecidableEq

/-- `config.averageBuyPrice && config.averageBuyPrice !== '0'`. -/
def hasCostBasis (averageBuyPrice : Option ℚ) : Bool :=
  match averageBuyPrice with
  | some a => decide (a ≠ 0)
  | none => false

/-- Orderbook depth snapshot: scaled `(price, quantity)` levels, best
first on each side. -/
structure OrderBook where
  bids : List (ℚ × ℚ)
  asks : List (ℚ × ℚ)
  deriving Repr, DecidableEq

/-- Unlocked balances for a market, in scaled integer units. -/
structure MarketBalances where
  baseUnlocked : ℚ
  quoteUnlocked : ℚ
  deriving Repr, DecidableEq

/-- An order placement issued by the executor: the arguments of its
`orderManager.placeOrder` call. -/
structure OrderIntent where
  side : String
  orderType : String
  priceScaled : ℚ
  quantityScaled : ℚ
  deriving Repr, DecidableEq

/-- Loop of `calculateVWAP`: walk the levels consuming `remainingSize`,
accumulating cost and filled size; the loop breaks once the remaining
size is exhausted and skips non-positive levels. -/
def vwapWalk (quoteDecimals baseDecimals : ℕ) :
    List (ℚ × ℚ) → ℚ → ℚ → ℚ → ℚ × ℚ × ℚ
  | [], remainingSize, totalCost, totalFilled =>
      (remainingSize, totalCost, totalFilled)
  | (priceRaw, quantityRaw) :: rest, remainingSize, totalCost, totalFilled =>
      if remainingSize ≤ 0 then (remainingSize, totalCost, totalFilled)
      else
        let price := priceRaw / (10 : ℚ) ^ quoteDecimals
        let quantity := quantityRaw / (10 : ℚ) ^ baseDecimals
        if quantity ≤ 0 ∨ price ≤ 0 then
          vwapWalk quoteDecimals baseDecimals rest remainingSize totalCost totalFilled
        else
          let fillSize := min remainingSize quantity
          vwapWalk quoteDecimals baseDecimals rest (remainingSize - fillSize)
            (totalCost + fillSize * price) (totalFilled + fillSize)

/-- `StrategyExecutor.calculateVWAP(levels, orderSizeBase, ...)`:
volume-weighted average price to fill `orderSizeBase`, or `none` when
the levels cannot fill it. -/
def calculateVWAP (levels : List (ℚ × ℚ)) (orderSizeBase : ℚ)
    (quoteDecimals baseDecimals : ℕ) : Option ℚ :=
  if levels.isEmpty then none
  else
    let walk := vwapWalk quoteDecimals baseDecimals levels orderSizeBase 0 0
    let remainingSize := walk.1
    let totalCost := walk.2.1
    let totalFilled := walk.2.2
    if 0 < remainingSize ∨ totalFilled ≤ 0 then none
    else some (totalCost / totalFilled)

/-- Result of `calculateEffectiveSpread`. -/
structure SpreadResult where
  spread : ℚ
  effectiveBid : ℚ
  effectiveAsk : ℚ
  midPrice : ℚ
  topOfBookSpread : ℚ
  insufficientLiquidity : Bool
  deriving Repr, DecidableEq

/-- `StrategyExecutor.calculateEffectiveSpread(orderBook, market,
orderSizeUsd)`: effective spread from the two side VWAPs for the
reference size; when either side cannot fill it, a sentinel spread of
999 flagged `insufficientLiquidity`. -/
def calculateEffectiveSpread (orderBook : OrderBook) (market : Market)
    (orderSizeUsd : ℚ) : Option SpreadResult :=
  match orderBook.bids, orderBook.asks with
  | bestBidEntry :: _, bestAskEntry :: _ =>
      let quoteScale : ℚ := (10 : ℚ) ^ market.quoteDecimals
      let bestBid := bestBidEntry.1 / quoteScale
      let bestAsk := bestAskEntry.1 / quoteScale
      let midPrice := (bestBid + bestAsk) / 2
      let topOfBookSpread := (bestAsk - bestBid) / midPrice * 100
      let orderSizeBase := orderSizeUsd / midPrice
      let effectiveBid :=
        calculateVWAP orderBook.bids orderSizeBase market.quoteDecimals market.baseDecimals
      let effectiveAsk :=
        calculateVWAP orderBook.asks orderSizeBase market.quoteDecimals market.baseDecimals
      match effectiveBid, effectiveAsk with
      | some effBid, some effAsk =>
          some { spread := (effAsk - effBid) / midPrice * 100
                 effectiveBid := effBid, effectiveAsk := effAsk
                 midPrice := midPrice, topOfBookSpread := topOfBookSpread
                 insufficientLiquidity := false }
      | _, _ =>
          some { spread := 999
                 effectiveBid := bestBid, effectiveAsk := bestAsk
                 midPrice := midPrice, topOfBookSpread := topOfBookSpread
                 insufficientLiquidity := true }
  | _, _ => none

/-- Result of `checkStopLoss`: the `triggered` flag and captured
effects — whether `cancelAllOrders` was called, the market sell it
placed (if any), and whether the tracked average buy price was reset to
zero and persisted. -/
structure StopLossResult where
  triggered : Bool
  cancelledAllOrders : Bool
  sellOrder : Option OrderIntent
  avgBuyPriceReset : Bool
  deriving Repr, DecidableEq

/-- `StrategyExecutor.checkStopLoss(market, config)`.
`tickerLastPrice` is the scaled `ticker.last_price` (`none` = no ticker
or no last price); `balancesAfterCancel` is the fresh balance snapshot
read after cancelling open orders. -/
def checkStopLoss (market : Market) (config : StrategyConfig)
    (tickerLastPrice : Option ℚ) (balancesAfterCancel : MarketBalances) :
    StopLossResult :=
  let notTriggered : StopLossResult :=
    { triggered := false, cancelledAllOrders := false
      sellOrder := none, avgBuyPriceReset := false }
  if ¬config.riskManagement.stopLossEnabled ∨
      config.riskManagement.stopLossPercent = 0 then notTriggered
  else if ¬hasCostBasis config.averageBuyPrice then notTriggered
  else
    match config.averageBuyPrice, tickerLastPrice with
    | some avg, some lastPrice =>
        let currentPrice := lastPrice / (10 : ℚ) ^ market.quoteDecimals
        let stopLossPercent := config.riskManagement.stopLossPercent
        let stopLossThreshold := avg * (1 - stopLossPercent / 100)
        if stopLossThreshold ≤ currentPrice then notTriggered
        else
          -- stop loss triggered: open orders cancelled, fresh balances read
          let baseBalanceHuman :=
            balancesAfterCancel.baseUnlocked / (10 : ℚ) ^ market.baseDecimals
          if baseBalanceHuman ≤ 0 then
            { triggered := true, cancelledAllOrders := true
              sellOrder := none, avgBuyPriceReset := false }
          else
            let orderValueUsd := baseBalanceHuman * currentPrice
            if orderValueUsd < config.positionSizing.minOrderSizeUsd then
              { triggered := true, cancelledAllOrders := true
                sellOrder := none, avgBuyPriceReset := false }
            else
              let quantityRounded := roundDownToMarketPrecision baseBalanceHuman market
              let quantityScaled := quantityRounded * (10 : ℚ) ^ market.baseDecimals
              let sellPriceScaled := scaleUpAndTruncateToInt currentPrice
                market.quoteDecimals market.quoteMaxPrecision market.tickSize
              { triggered := true, cancelledAllOrders := true
                sellOrder := some { side := "Sell", orderType := "Market"
                                    priceScaled := sellPriceScaled
                                    quantityScaled := quantityScaled }
                avgBuyPriceReset := true }
    | _, _ => notTriggered

/-- `positionSizing.maxOrderSizeUsd && value.gt(maxOrderSizeUsd)` —
the cap applies only when present, non-zero and exceeded. -/
def capExceeded (maxOrderSizeUsd : Option ℚ) (value : ℚ) : Bool :=
  match maxOrderSizeUsd with
  | some cap => decide (cap ≠ 0) && decide (cap < value)
  | none => false

/-- Result of `calculateOrderSize`. -/
structure OrderSize where
  quantity : ℚ
  valueUsd : ℚ
  deriving Repr, DecidableEq

/-- `StrategyExecutor.calculateOrderSize(market, positionSizing,
balances, side, price, isMarketOrder)`. -/
def calculateOrderSize (market : Market) (positionSizing : PositionSizing)
    (balances : MarketBalances) (side : String) (price : ℚ)
    (isMarketOrder : Bool) : Option OrderSize :=
  if ¬isValidPrice price then none
  else
    let MARKET_ORDER_SLIPPAGE_BUFFER : ℚ := if isMarketOrder then 98 / 100 else 1
    if positionSizing.sizeMode = "fixedUsd" then
      let fixedAmount := positionSizing.fixedUsdAmount.getD 0
      if fixedAmount ≤ 0 then none
      else
        let orderValue :=
          if capExceeded positionSizing.maxOrderSizeUsd fixedAmount then
            positionSizing.maxOrderSizeUsd.getD 0
          else fixedAmount
        let quantity := orderValue / price
        if side = "buy" then
          let quoteBalanceHuman :=
            balances.quoteUnlocked / (10 : ℚ) ^ market.quoteDecimals
          let effectiveBalance := quoteBalanceHuman * MARKET_ORDER_SLIPPAGE_BUFFER
          let requiredQuote := quantity * price
          if effectiveBalance < requiredQuote then
            let maxQuantity := effectiveBalance / price
            some { quantity := maxQuantity, valueUsd := maxQuantity * price }
          else some { quantity := quantity, valueUsd := orderValue }
        else
          let baseBalanceHuman :=
            balances.baseUnlocked / (10 : ℚ) ^ market.baseDecimals
          let effectiveBalance := baseBalanceHuman * MARKET_ORDER_SLIPPAGE_BUFFER
          if effectiveBalance < quantity then
            some { quantity := effectiveBalance, valueUsd := effectiveBalance * price }
          else some { quantity := quantity, valueUsd := orderValue }
    else
      let balancePercentage : ℚ :=
        if side = "buy" then
          match positionSizing.quoteBalancePercentage with
          | some p => p / 100
          | none => positionSizing.balancePercentage / 100
        else
          match positionSizing.baseBalancePercentage with
          | some p => p / 100
          | none => positionSizing.balancePercentage / 100
      if side = "buy" then
        let quoteBalanceHuman :=
          balances.quoteUnlocked / (10 : ℚ) ^ market.quoteDecimals
        let effectiveBalance := quoteBalanceHuman * MARKET_ORDER_SLIPPAGE_BUFFER
        let orderValue0 := effectiveBalance * balancePercentage
        let orderValue1 :=
          if capExceeded positionSizing.maxOrderSizeUsd orderValue0 then
            positionSizing.maxOrderSizeUsd.getD 0
          else orderValue0
        let orderValue :=
          if effectiveBalance < orderValue1 then effectiveBalance else orderValue1
        some { quantity := orderValue / price, valueUsd := orderValue }
      else
        let baseBalanceHuman :=
          balances.baseUnlocked / (10 : ℚ) ^ market.baseDecimals
        let effectiveBalance := baseBalanceHuman * MARKET_ORDER_SLIPPAGE_BUFFER
        let quantity0 := effectiveBalance * balancePercentage
        let orderValue0 := quantity0 * price
        let capped :=
          if capExceeded positionSizing.maxOrderSizeUsd orderValue0 then
            (positionSizing.maxOrderSizeUsd.getD 0 / price,
             positionSizing.maxOrderSizeUsd.getD 0)
          else (quantity0, orderValue0)
        let clamped :=
          if effectiveBalance < capped.1 then
            (effectiveBalance, effectiveBalance * price)
          else capped
        some { quantity := clamped.1, valueUsd := clamped.2 }

/-- `StrategyExecutor.calculatePrices(market, ticker, orderBook,
orderConfig)`: reference price by mode with ticker fallback, symmetric
offset, optional per-side randomization.  `randBuy`/`randSell` are the
two `Math.random()` draws in `[0, 1)`. -/
def calculatePrices (market : Market) (tickerLastPrice : ℚ)
    (orderBook : Option OrderBook) (orderConfig : OrderConfig)
    (randBuy randSell : ℚ) : ℚ × ℚ :=
  let quoteScale : ℚ := (10 : ℚ) ^ market.quoteDecimals
  let referencePrice : ℚ :=
    if orderConfig.priceMode = "market" then tickerLastPrice / quoteScale
    else if orderConfig.priceMode = "offsetFromBestBid" then
      match orderBook with
      | some ob =>
          match ob.bids with
          | (bidPrice, _) :: _ => bidPrice / quoteScale
          | [] => tickerLastPrice / quoteScale
      | none => tickerLastPrice / quoteScale
    else if orderConfig.priceMode = "offsetFromBestAsk" then
      match orderBook with
      | some ob =>
          match ob.asks with
          | (askPrice, _) :: _ => askPrice / quoteScale
          | [] => tickerLastPrice / quoteScale
      | none => tickerLastPrice / quoteScale
    else
      -- offsetFromMid and default
      match orderBook with
      | some ob =>
          match ob.bids, ob.asks with
          | (bidPrice, _) :: _, (askPrice, _) :: _ =>
              let bestBid := bidPrice / quoteScale
              let bestAsk := askPrice / quoteScale
              (bestBid + bestAsk) / 2
          | _, _ => tickerLastPrice / quoteScale
      | none => tickerLastPrice / quoteScale
  let buyPrice0 := referencePrice * (1 - orderConfig.priceOffsetPercent / 100)
  let sellPrice0 := referencePrice * (1 + orderConfig.priceOffsetPercent / 100)
  let randomizationOn : Bool :=
    orderConfig.priceRandomizationEnabled &&
      match orderConfig.priceRandomizationRangePercent with
      | some r => decide (r ≠ 0)
      | none => false
  if randomizationOn then
    let range := (orderConfig.priceRandomizationRangePercent.getD 0) / 100
    let buyRandomFactor := 1 + (randBuy * 2 - 1) * range
    let sellRandomFactor := 1 + (randSell * 2 - 1) * range
    (buyPrice0 * buyRandomFactor, sellPrice0 * sellRandomFactor)
  else (buyPrice0, sellPrice0)

/-- `StrategyExecutor.placeBuyOrder`: cap a limit buy at the best ask,
size the order, check the minimum notional, truncate price and
quantity, and return the placement intent (`none` when skipped). -/
def placeBuyOrder (market : Market) (config : StrategyConfig)
    (buyPriceHuman0 : ℚ) (balances : MarketBalances)
    (orderBook : Option OrderBook) : Option OrderIntent :=
  let buyPriceHuman :=
    match orderBook with
    | some ob =>
        match ob.asks with
        | (askPrice, _) :: _ =>
            let bestAskPrice := askPrice / (10 : ℚ) ^ market.quoteDecimals
            if bestAskPrice < buyPriceHuman0 ∧ config.orderConfig.orderType = "Spot"
            then bestAskPrice
            else buyPriceHuman0
        | [] => buyPriceHuman0
    | none => buyPriceHuman0
  let isMarketOrder := config.orderConfig.orderType ≠ "Spot"
  match calculateOrderSize market config.positionSizing balances "buy"
      buyPriceHuman isMarketOrder with
  | none => none
  | some orderSize =>
      if orderSize.quantity = 0 then none
      else
        let buyPriceTruncated := scaleUpAndTruncateToInt buyPriceHuman
          market.quoteDecimals market.quoteMaxPrecision market.tickSize
        let quantityRounded := roundDownToMarketPrecision orderSize.quantity market
        let quantityScaled := quantityRounded * (10 : ℚ) ^ market.baseDecimals
        let orderValueUsd := quantityRounded * buyPriceHuman
        if orderValueUsd < config.positionSizing.minOrderSizeUsd then none
        else
          some { side := "Buy"
                 orderType := if config.orderConfig.orderType = "Spot"
                              then "Spot" else "Market"
                 priceScaled := buyPriceTruncated
                 quantityScaled := quantityScaled }

/-- `StrategyExecutor.placeSellOrder`: profit protection (force a Spot
limit at the floor when the computed price is below it; skip entirely
when the toggle is on but no cost basis is tracked), then sizing,
minimum-notional check and truncation. -/
def placeSellOrder (market : Market) (config : StrategyConfig)
    (sellPriceHuman : ℚ) (balances : MarketBalances) : Option OrderIntent :=
  let takeProfitRate := (config.riskManagement.takeProfitPercent.getD (2 / 100)) / 100
  let protect :=
    if hasCostBasis config.averageBuyPrice ∧ config.orderManagement.onlySellAboveBuyPrice then
      let avgBuyPriceDecimal := (config.averageBuyPrice.getD 0)
      let minProfitablePrice := avgBuyPriceDecimal * (1 + takeProfitRate)
      if sellPriceHuman < minProfitablePrice then (minProfitablePrice, true)
      else (sellPriceHuman, false)
    else (sellPriceHuman, false)
  let adjustedSellPrice := protect.1
  let forceLimitOrder := protect.2
  if config.orderManagement.onlySellAboveBuyPrice ∧
      ¬hasCostBasis config.averageBuyPrice then none
  else
    let isSellMarketOrder := ¬forceLimitOrder ∧ config.orderConfig.orderType ≠ "Spot"
    match calculateOrderSize market config.positionSizing balances "sell"
        adjustedSellPrice isSellMarketOrder with
    | none => none
    | some orderSize =>
        if orderSize.quantity = 0 then none
        else
          let sellPriceTruncated := scaleUpAndTruncateToInt adjustedSellPrice
            market.quoteDecimals market.quoteMaxPrecision market.tickSize
          let quantityRounded := roundDownToMarketPrecision orderSize.quantity market
          let quantityScaled := quantityRounded * (10 : ℚ) ^ market.baseDecimals
          let orderValueUsd := quantityRounded * adjustedSellPrice
          if orderValueUsd < config.positionSizing.minOrderSizeUsd then none
          else
            some { side := "Sell"
                   orderType :=
                     if forceLimitOrder then "Spot"
                     else if config.orderConfig.orderType = "Spot" then "Spot"
                     else "Market"
                   priceScaled := sellPriceTruncated
                   quantityScaled := quantityScaled }

/-- One open order as returned by `getOpenOrders` and read in step 6 of
the cycle. -/
structure OpenOrder where
  order_id : ℕ
  side : String
  created_at : ℚ
  deriving Repr, DecidableEq

/-- Outcome of step 6 of `execute`: the per-side placement flags and
the ids of the open orders the timeout sweep cancelled. -/
structure OrderCountGate where
  shouldPlaceBuy : Bool
  shouldPlaceSell : Bool
  cancelledTimedOut : List ℕ
  deriving Repr, DecidableEq

/-- Step 6 of `StrategyExecutor.execute`: when a per-side cap is
configured (`maxOpenOrders > 0`), fetch open orders, suppress the sides
at the cap, and — inside the same block — cancel orders older than the
configured timeout when the timeout is enabled. -/
def orderCountGate (config : StrategyConfig) (openOrders : List OpenOrder)
    (now : ℚ) : OrderCountGate :=
  if config.orderManagement.maxOpenOrders = 0 then
    { shouldPlaceBuy := true, shouldPlaceSell := true, cancelledTimedOut := [] }
  else
    let buyOrders := openOrders.filter (fun o => o.side = "Buy")
    let sellOrders := openOrders.filter (fun o => o.side = "Sell")
    let side := config.orderConfig.side
    let shouldPlaceBuy : Bool :=
      ¬((side = "Buy" ∨ side = "Both") ∧
        config.orderManagement.maxOpenOrders ≤ buyOrders.length)
    let shouldPlaceSell : Bool :=
      ¬((side = "Sell" ∨ side = "Both") ∧
        config.orderManagement.maxOpenOrders ≤ sellOrders.length)
    let cancelledTimedOut :=
      if config.riskManagement.orderTimeoutEnabled ∧
          0 < config.riskManagement.orderTimeoutMinutes then
        let timeoutMs := config.riskManagement.orderTimeoutMinutes * 60 * 1000
        (openOrders.filter (fun o => timeoutMs < now - o.created_at)).map
          (fun o => o.order_id)
      else []
    { shouldPlaceBuy := shouldPlaceBuy, shouldPlaceSell := shouldPlaceSell
      cancelledTimedOut := cancelledTimedOut }

/-- Skip reasons of the cycle, one constructor per distinct reason
string the source builds. -/
inductive SkipReason where
  /-- `Session loss $X exceeds max $Y, pausing` -/
  | sessionLoss
  /-- `No ticker data available` -/
  | noTicker
  /-- `Insufficient liquidity - cannot fill $N order, skipping` -/
  | insufficientLiquidity
  /-- `Effective spread X% for $N order exceeds max Y% (top-of-book: Z%), skipping` -/
  | effectiveSpreadExceeds
  /-- `Spread X% exceeds max Y%, skipping` -/
  | spreadExceeds
  deriving Repr, DecidableEq

/-- Step 4 of `StrategyExecutor.execute`: when an orderbook is
available and a maximum spread is configured, compute the effective
spread for the reference order size (`minOrderSizeUsd || 5`) and skip
when it exceeds the maximum, with the reason distinguishing
insufficient liquidity, a depth-driven effective spread, and a plain
wide spread. -/
def spreadGate (market : Market) (config : StrategyConfig)
    (orderBook : Option OrderBook) : Option SkipReason :=
  match orderBook with
  | some orderBook =>
      if 0 < config.orderConfig.maxSpreadPercent then
        let referenceOrderSizeUsd :=
          if config.positionSizing.minOrderSizeUsd ≠ 0 then
            config.positionSizing.minOrderSizeUsd
          else 5
        match calculateEffectiveSpread orderBook market referenceOrderSizeUsd with
        | some spreadResult =>
            if config.orderConfig.maxSpreadPercent < spreadResult.spread then
              if spreadResult.insufficientLiquidity then
                some SkipReason.insufficientLiquidity
              else if spreadResult.topOfBookSpread * (11 / 10) <
                  spreadResult.spread then
                some SkipReason.effectiveSpreadExceeds
              else some SkipReason.spreadExceeds
            else none
        | none => none
      else none
  | none => none

/-- Inputs of one execution cycle: the values the executor's I/O calls
would return, plus the wall clock and the `Math.random()` draws. -/
structure ExecuteEnv where
  /-- `getTradeStats(market_id).realizedPnl` -/
  realizedPnl : ℚ
  /-- scaled `ticker.last_price`; `none` = no ticker / no last price -/
  tickerLastPrice : Option ℚ
  /-- `getOrderBook(market_id)` -/
  orderBook : Option OrderBook
  /-- balances read at step 5 -/
  balances : MarketBalances
  /-- balances read inside `checkStopLoss` after cancelling -/
  balancesAfterCancel : MarketBalances
  /-- `getOpenOrders(market)` at step 6 -/
  openOrders : List OpenOrder
  /-- the fresh `averageBuyPrice` re-read from the DB before the sell
  (`none` = no row, parse failure, or falsy value) -/
  dbAverageBuyPrice : Option ℚ
  now : ℚ
  /-- `Math.random()` draw for `nextRunAt` -/
  randNext : ℚ
  /-- `Math.random()` draws for price randomization -/
  randBuy : ℚ
  randSell : ℚ
  deriving Repr, DecidableEq

/-- Result of one cycle: the source's `StrategyExecutionResult`
(`executed`, placed orders, `nextRunAt`, skip reason) plus captured
effects (cancellations, cost-basis reset). -/
structure ExecutionResult where
  executed : Bool
  orders : List OrderIntent
  nextRunAt : Option ℚ
  skipReason : Option SkipReason
  cancelledAllOrders : Bool
  cancelledTimedOut : List ℕ
  avgBuyPriceReset : Bool
  deriving Repr, DecidableEq

/-- `StrategyExecutor.execute(market, config)`: one full strategy cycle
over the I/O snapshot in `env`. -/
def execute (market : Market) (config : StrategyConfig) (env : ExecuteEnv) :
    ExecutionResult :=
  let minInterval := config.timing.cycleIntervalMinMs
  let maxInterval := config.timing.cycleIntervalMaxMs
  let nextRunAt := calculateNextRun env.now minInterval maxInterval env.randNext
  -- 1. check max session loss
  if config.riskManagement.maxSessionLossEnabled ∧
      0 < config.riskManagement.maxSessionLossUsd ∧
      env.realizedPnl < -config.riskManagement.maxSessionLossUsd then
    { executed := false, orders := [], nextRunAt := some nextRunAt
      skipReason := some SkipReason.sessionLoss
      cancelledAllOrders := false, cancelledTimedOut := []
      avgBuyPriceReset := false }
  else
    -- 2. check stop loss
    let stopLossResult :=
      checkStopLoss market config env.tickerLastPrice env.balancesAfterCancel
    if stopLossResult.triggered then
      { executed := stopLossResult.sellOrder.isSome
        orders := stopLossResult.sellOrder.toList
        nextRunAt := some nextRunAt, skipReason := none
        cancelledAllOrders := stopLossResult.cancelledAllOrders
        cancelledTimedOut := []
        avgBuyPriceReset := stopLossResult.avgBuyPriceReset }
    else
      -- 3. get ticker and orderbook
      match env.tickerLastPrice with
      | none =>
          { executed := false, orders := [], nextRunAt := none
            skipReason := some SkipReason.noTicker
            cancelledAllOrders := false, cancelledTimedOut := []
            avgBuyPriceReset := false }
      | some tickerLastPrice =>
          -- 4. check spread vs maxSpreadPercent
          match spreadGate market config env.orderBook with
          | some skipReason =>
              { executed := false, orders := [], nextRunAt := some nextRunAt
                skipReason := some skipReason
                cancelledAllOrders := false, cancelledTimedOut := []
                avgBuyPriceReset := false }
          | none =>
              -- 5. balances (env.balances); 6. max open orders per side
              let gate := orderCountGate config env.openOrders env.now
              -- 7. calculate prices
              let prices := calculatePrices market tickerLastPrice env.orderBook
                config.orderConfig env.randBuy env.randSell
              let side := config.orderConfig.side
              let willPlaceBuy :=
                gate.shouldPlaceBuy ∧ (side = "Buy" ∨ side = "Both")
              let willPlaceSell :=
                gate.shouldPlaceSell ∧ (side = "Sell" ∨ side = "Both")
              -- 8. place buy order
              let buyOrder :=
                if willPlaceBuy then
                  placeBuyOrder market config prices.1 env.balances env.orderBook
                else none
              -- 9. place sell order, re-reading averageBuyPrice from DB
              let configForSell :=
                { config with
                    averageBuyPrice :=
                      match env.dbAverageBuyPrice with
                      | some fresh => some fresh
                      | none => config.averageBuyPrice }
              let sellOrder :=
                if willPlaceSell then
                  placeSellOrder market configForSell prices.2 env.balances
                else none
              -- 10. return results
              let orders := buyOrder.toList ++ sellOrder.toList
              { executed := ¬orders.isEmpty, orders := orders
                nextRunAt := some nextRunAt, skipReason := none
                cancelledAllOrders := false
                cancelledTimedOut := gate.cancelledTimedOut
                avgBuyPriceReset := false }

/-- `TradingEngine.executeMarket`'s rescheduling after a cycle:
`schedule.nextRunAt = result.nextRunAt || this.calculateNextRun(config)`
— the result's timestamp when present and truthy (non-zero), otherwise
a fresh draw at completion time.  The same fallback serves the error
path, which also calls `calculateNextRun`. -/
def engineNextRunAt (result : ExecutionResult) (config : StrategyConfig)
    (now random : ℚ) : ℚ :=
  match result.nextRunAt with
  | some t =>
      if t ≠ 0 then t
      else calculateNextRun now config.timing.cycleIntervalMinMs
        config.timing.cycleIntervalMaxMs random
  | none =>
      calculateNextRun now config.timing.cycleIntervalMinMs
        config.timing.cycleIntervalMaxMs random

/-! ## Concrete fixtures

Inputs for the concrete scenarios named by the specification's testable
properties.  The `base*` records hold neutral values for the fields a
scenario does not exercise. -/

def baseOrderConfig : OrderConfig :=
  { side := "Both", orderType := "Market", priceMode := "market"
    priceOffsetPercent := 0, priceRandomizationEnabled := false
    priceRandomizationRangePercent := none, maxSpreadPercent := 0 }

def basePositionSizing : PositionSizing :=
  { sizeMode := "percentageOfBalance", fixedUsdAmount := none
    maxOrderSizeUsd := none, balancePercentage := 100
    quoteBalancePercentage := none, baseBalancePercentage := none
    minOrderSizeUsd := 5 }

def baseStrategyConfig : StrategyConfig :=
  { orderConfig := baseOrderConfig
    positionSizing := basePositionSizing
    orderManagement := { maxOpenOrders := 0, onlySellAboveBuyPrice := false }
    riskManagement :=
      { stopLossEnabled := false, stopLossPercent := 0
        takeProfitPercent := some (1 / 50), orderTimeoutEnabled := false
        orderTimeoutMinutes := 0, maxSessionLossEnabled := false
        maxSessionLossUsd := 0 }
    timing := { cycleIntervalMinMs := 60000, cycleIntervalMaxMs := 120000 }
    averageBuyPrice := none }

/-- Market with step size `0.001` for the rounding round-trip. -/
def stepMarket : Market :=
  { baseDecimals := 6, quoteDecimals := 6, quoteMaxPrecision := some 6
    baseMaxPrecision := some 6, stepSize := some (1 / 1000), tickSize := none }

/-- A partial fill reporting cumulative quantity `3.0`. -/
def updFillA : OrderUpdate :=
  { order_id := 1, close := false, partially_filled := true
    quantity_fill := 3, price_fill := some 100, price := 100, side := "buy" }

/-- The same order later reporting cumulative quantity `7.5`. -/
def updFillB : OrderUpdate :=
  { updFillA with quantity_fill := 15 / 2 }

/-- Market for the profit-floor scenario. -/
def sellMarket : Market :=
  { baseDecimals := 3, quoteDecimals := 4, quoteMaxPrecision := some 4
    baseMaxPrecision := some 3, stepSize := none, tickSize := none }

/-- Profit-floor config: toggle on, `avgBuyPrice = 100`,
`takeProfitPercent = 0.02`, configured order type market. -/
def sellConfig : StrategyConfig :=
  { baseStrategyConfig with
      orderManagement := { maxOpenOrders := 0, onlySellAboveBuyPrice := true }
      averageBuyPrice := some 100 }

/-- 10 base units unlocked (scaled by `10^3`). -/
def sellBalances : MarketBalances :=
  { baseUnlocked := 10000, quoteUnlocked := 0 }

/-- Market for the stop-loss scenario. -/
def stopMarket : Market :=
  { baseDecimals := 2, quoteDecimals := 2, quoteMaxPrecision := some 2
    baseMaxPrecision := some 2, stepSize := none, tickSize := none }

/-- Stop-loss config: enabled at 5% with `avgBuyPrice = 100`. -/
def stopConfig : StrategyConfig :=
  { baseStrategyConfig with
      riskManagement :=
        { baseStrategyConfig.riskManagement with
            stopLossEnabled := true, stopLossPercent := 5 }
      averageBuyPrice := some 100 }

/-- 50 base units unlocked (scaled by `10^2`) after cancellation. -/
def stopBalances : MarketBalances :=
  { baseUnlocked := 5000, quoteUnlocked := 0 }

/-- Order-timeout config with no per-side cap (`maxOpenOrders = 0`),
timeout enabled at 1 minute, buy side only. -/
def timeoutConfig : StrategyConfig :=
  { baseStrategyConfig with
      orderConfig := { baseOrderConfig with side := "Buy" }
      riskManagement :=
        { baseStrategyConfig.riskManagement with
            orderTimeoutEnabled := true, orderTimeoutMinutes := 1 } }

/-- An open order created at time 0. -/
def staleOrder : OpenOrder :=
  { order_id := 7, side := "Buy", created_at := 0 }

/-- Cycle inputs at `now = 120000` ms with the stale order open. -/
def timeoutEnv : ExecuteEnv :=
  { realizedPnl := 0, tickerLastPrice := some 10000, orderBook := none
    balances := { baseUnlocked := 0, quoteUnlocked := 0 }
    balancesAfterCancel := { baseUnlocked := 0, quoteUnlocked := 0 }
    openOrders := [staleOrder], dbAverageBuyPrice := none
    now := 120000, randNext := 0, randBuy := 0, randSell := 0 }

/-- Orderbook whose ask side (one level of 0.01 base) cannot fill the
reference order size, while the bid side is deep. -/
def thinBook : OrderBook :=
  { bids := [(10000, 100000)], asks := [(10100, 1)] }

/-- Spread-gate config with a configured maximum spread of 1000%. -/
def wideSpreadConfig : StrategyConfig :=
  { baseStrategyConfig with
      orderConfig :=
        { baseOrderConfig with side := "Buy", maxSpreadPercent := 1000 } }

/-- Spread-gate config with a configured maximum spread of 50%. -/
def narrowSpreadConfig : StrategyConfig :=
  { baseStrategyConfig with
      orderConfig :=
        { baseOrderConfig with side := "Buy", maxSpreadPercent := 50 } }

/-- Cycle inputs exposing the thin book. -/
def spreadEnv : ExecuteEnv :=
  { realizedPnl := 0, tickerLastPrice := some 10000
    orderBook := some thinBook
    balances := { baseUnlocked := 0, quoteUnlocked := 0 }
    balancesAfterCancel := { baseUnlocked := 0, quoteUnlocked := 0 }
    openOrders := [], dbAverageBuyPrice := none
    now := 0, randNext := 0, randBuy := 0, randSell := 0 }

/-- Three active markets with distinct next-run timestamps. -/
def schedA : MarketSchedule := { marketId := 1, isActive := true, nextRunAt := 300 }

def schedB : MarketSchedule := { marketId := 2, isActive := true, nextRunAt := 100 }

def schedC : MarketSchedule := { marketId := 3, isActive := true, nextRunAt := 200 }

/-- Failure whose body carries both a chain `IncrementNonceEvent` (nonce
5) and a database hint (nonce 9), mentioning a nonce conflict. -/
def nonceErr : SubmitError :=
  { incrementNonceEvent := some 5, dbNonceHint := some 9
    mentionsNonce := true, hasInvalidSession := false
    hasInvalidSessionAddress := false }

/-- Nonce-conflict failure with no parsable nonce in the body. -/
def bareNonceErr : SubmitError :=
  { incrementNonceEvent := none, dbNonceHint := none
    mentionsNonce := true, hasInvalidSession := false
    hasInvalidSessionAddress := false }

/-- `Invalid session address` failure. -/
def invalidSessErr : SubmitError :=
  { incrementNonceEvent := none, dbNonceHint := none
    mentionsNonce := false, hasInvalidSession := true
    hasInvalidSessionAddress := true }

/-! ## Helper lemmas -/

theorem roundDownByPrecision_idem (q : ℚ) (m : Market) :
    roundDownByPrecision (roundDownByPrecision q m) m = roundDownByPrecision q m := by
  simp only [roundDownByPrecision]
  have hm : ((10 : ℚ) ^ (m.baseMaxPrecision.getD (min m.baseDecimals 6))) ≠ 0 := by
    positivity
  rw [div_mul_cancel₀ _ hm, Int.floor_intCast]

/-! ## Claim theorems -/

/-- C9: rounding down to a market's step size is correct on the concrete
example (step `0.001` maps `1.23456` to `1.234`) and idempotent for every
quantity and market. -/
theorem roundDownToMarketPrecision_correct_idem :
    roundDownToMarketPrecision (123456 / 100000) stepMarket = 617 / 500 ∧
    ∀ (q : ℚ) (m : Market),
      roundDownToMarketPrecision (roundDownToMarketPrecision q m) m =
        roundDownToMarketPrecision q m := by
  constructor
  · norm_num [roundDownToMarketPrecision, stepMarket]
  · intro q m
    simp only [roundDownToMarketPrecision]
    rcases hst : m.stepSize with _ | s
    · exact roundDownByPrecision_idem q m
    · dsimp only
      split_ifs with hs
      · rw [mul_div_cancel_right₀ _ hs, Int.floor_intCast]
      · exact roundDownByPrecision_idem q m

/-- C7: every `placeOrder` call submits exactly the ordered action list
settle-balance-to-self, create-order, settle-balance-to-self. -/
theorem placeOrder_settleBalance_sandwich
    (tradeAccountId marketId : ℕ) (side orderType : String)
    (priceScaled quantityScaled : ℚ) :
    (placeOrder tradeAccountId marketId side orderType priceScaled
        quantityScaled).actions =
      [SessionAction.SettleBalance tradeAccountId,
       SessionAction.CreateOrder side orderType priceScaled quantityScaled,
       SessionAction.SettleBalance tradeAccountId] := rfl

theorem FillMap.getQty_setQty_self (m : FillMap) (orderId : ℕ) (v : ℚ) :
    (m.setQty orderId v).getQty orderId = v := by
  induction m with
  | nil => simp [FillMap.setQty, FillMap.getQty]
  | cons kv rest ih =>
      obtain ⟨k, w⟩ := kv
      by_cases hk : k = orderId
      · simp [FillMap.setQty, FillMap.getQty, hk]
      · simp [FillMap.setQty, FillMap.getQty, hk, ih]

theorem FillMap.getQty_setQty_ne (m : FillMap) (orderId orderId' : ℕ) (v : ℚ)
    (h : orderId ≠ orderId') :
    (m.setQty orderId v).getQty orderId' = m.getQty orderId' := by
  induction m with
  | nil => simp [FillMap.setQty, FillMap.getQty, h]
  | cons kv rest ih =>
      obtain ⟨k, w⟩ := kv
      by_cases hk : k = orderId
      · subst hk
        simp [FillMap.setQty, FillMap.getQty, h]
      · simp [FillMap.setQty, FillMap.getQty, hk, ih]

theorem processOrderUpdate_none_eq (m : FillMap) (o : OrderUpdate)
    (h : (processOrderUpdate m o).2 = none) : (processOrderUpdate m o).1 = m := by
  simp only [processOrderUpdate] at h ⊢
  split_ifs at h ⊢ <;> simp_all

theorem processOrderUpdate_some (m : FillMap) (o : OrderUpdate) (f : FillEvent)
    (h : (processOrderUpdate m o).2 = some f) :
    (processOrderUpdate m o).1 = m.setQty o.order_id o.quantity_fill ∧
    f.sizeBase = o.quantity_fill - m.getQty o.order_id ∧
    m.getQty o.order_id < o.quantity_fill ∧ 0 < o.quantity_fill := by
  simp only [processOrderUpdate] at h ⊢
  split_ifs at h ⊢ with h1 h2 h3
  all_goals simp at h
  subst h
  exact ⟨rfl, rfl, by linarith [not_le.mp h3], by linarith [not_le.mp h2]⟩

theorem processOrderUpdate_emit_iff (m : FillMap) (o : OrderUpdate)
    (h0 : 0 ≤ m.getQty o.order_id) :
    (processOrderUpdate m o).2.isSome ↔
      ((o.close = true ∨ o.partially_filled = true) ∧
        m.getQty o.order_id < o.quantity_fill) := by
  simp only [processOrderUpdate]
  split_ifs with h1 h2 h3
  · simp only [Option.isSome_none, Bool.false_eq_true, false_iff]
    push_neg at h1 ⊢
    intro hc
    exact absurd hc (by simpa using h1)
  · simp only [Option.isSome_none, Bool.false_eq_true, false_iff]
    intro hc
    linarith [hc.2]
  · simp only [Option.isSome_none, Bool.false_eq_true, false_iff]
    intro hc
    linarith [hc.2]
  · simp only [Option.isSome_some, true_iff]
    constructor
    · by_contra hc
      push_neg at hc
      exact h1 ⟨by simp [hc.1], by simp [hc.2]⟩
    · linarith [not_le.mp h3]

theorem processOrderUpdate_getQty_mono (m : FillMap) (o : OrderUpdate) (orderId : ℕ) :
    m.getQty orderId ≤ ((processOrderUpdate m o).1).getQty orderId := by
  rcases hv : (processOrderUpdate m o).2 with _ | f
  · rw [processOrderUpdate_none_eq m o hv]
  · obtain ⟨hmap, _, hlt, _⟩ := processOrderUpdate_some m o f hv
    rw [hmap]
    by_cases hid : o.order_id = orderId
    · subst hid
      rw [FillMap.getQty_setQty_self]
      exact le_of_lt hlt
    · rw [FillMap.getQty_setQty_ne _ _ _ _ hid]

theorem handleOrderUpdates_getQty_mono (orders : List OrderUpdate) (m : FillMap)
    (orderId : ℕ) :
    m.getQty orderId ≤ ((handleOrderUpdates m orders).1).getQty orderId := by
  induction orders generalizing m with
  | nil => simp [handleOrderUpdates]
  | cons o rest ih =>
      simp only [handleOrderUpdates]
      exact le_trans (processOrderUpdate_getQty_mono m o orderId)
        (ih (processOrderUpdate m o).1)

/-- C2: a fill event is emitted for an update iff it reports closed or
partially filled with a cumulative filled quantity strictly above the
last-observed value, the emitted size being the difference; cumulative
quantities 3.0 then 7.5 yield fills of sizes 3.0 and 4.5, and the same
update twice yields exactly one fill. -/
theorem handleOrderUpdates_incremental_dedup :
    (∀ (m : FillMap) (o : OrderUpdate), 0 ≤ m.getQty o.order_id →
        ((processOrderUpdate m o).2.isSome ↔
          ((o.close = true ∨ o.partially_filled = true) ∧
            m.getQty o.order_id < o.quantity_fill)) ∧
        ∀ f, (processOrderUpdate m o).2 = some f →
          f.sizeBase = o.quantity_fill - m.getQty o.order_id) ∧
    (handleOrderUpdates [] [updFillA, updFillB]).2.map FillEvent.sizeBase =
      [3, 9 / 2] ∧
    (handleOrderUpdates [] [updFillA, updFillA]).2.length = 1 := by
  refine ⟨fun m o h0 => ⟨processOrderUpdate_emit_iff m o h0,
    fun f hf => (processOrderUpdate_some m o f hf).2.1⟩, ?_, ?_⟩
  · norm_num [handleOrderUpdates, processOrderUpdate, updFillA, updFillB,
      FillMap.getQty, FillMap.setQty, normalizeSide]
  · norm_num [handleOrderUpdates, processOrderUpdate, updFillA,
      FillMap.getQty, FillMap.setQty, normalizeSide]

/-- Witness for C2 at the concrete map `[]` and update `updFillA`. -/
theorem handleOrderUpdates_incremental_dedup_witness :
    (processOrderUpdate [] updFillA).2.isSome ↔
      ((updFillA.close = true ∨ updFillA.partially_filled = true) ∧
        FillMap.getQty [] updFillA.order_id < updFillA.quantity_fill) :=
  (handleOrderUpdates_incremental_dedup.1 [] updFillA (le_refl 0)).1

/-- C10: the last-observed cumulative map is overwritten with the
reported quantity exactly when a fill is emitted, an update at or below
the stored value leaves the map unchanged, and the per-order stored
value is non-decreasing over any delivery sequence. -/
theorem previousFilledQty_monotone :
    (∀ (m : FillMap) (o : OrderUpdate),
        ((processOrderUpdate m o).2.isSome →
          (processOrderUpdate m o).1 = m.setQty o.order_id o.quantity_fill) ∧
        ((processOrderUpdate m o).2 = none → (processOrderUpdate m o).1 = m) ∧
        (o.quantity_fill ≤ m.getQty o.order_id →
          (processOrderUpdate m o).1 = m ∧ (processOrderUpdate m o).2 = none)) ∧
    ∀ (m : FillMap) (orders : List OrderUpdate) (orderId : ℕ),
      m.getQty orderId ≤ ((handleOrderUpdates m orders).1).getQty orderId := by
  refine ⟨fun m o => ⟨?_, processOrderUpdate_none_eq m o, ?_⟩,
    fun m orders orderId => handleOrderUpdates_getQty_mono orders m orderId⟩
  · intro hs
    rcases hv : (processOrderUpdate m o).2 with _ | f
    · rw [hv] at hs; simp at hs
    · exact (processOrderUpdate_some m o f hv).1
  · intro hle
    rcases hv : (processOrderUpdate m o).2 with _ | f
    · exact ⟨processOrderUpdate_none_eq m o hv, rfl⟩
    · obtain ⟨_, _, hlt, _⟩ := processOrderUpdate_some m o f hv
      exact (not_le.mpr hlt hle).elim

/-- Witness for C10 at the concrete map `[(1, 5)]` and update
`updFillA` (cumulative 3 at or below stored 5: map unchanged, no
fill). -/
theorem previousFilledQty_monotone_witness :
    (processOrderUpdate [(1, 5)] updFillA).1 = [(1, 5)] ∧
      (processOrderUpdate [(1, 5)] updFillA).2 = none :=
  (previousFilledQty_monotone.1 [(1, 5)] updFillA).2.2
    (by norm_num [updFillA, FillMap.getQty])

/-- C1: on failure the nonce is recovered in priority order — chain
increment event, then database hint, then venue query — a nonce-conflict
error that is not an invalid-session error is retried exactly once with
the corrected nonce and a second failure is surfaced to the caller, and
an invalid-session error is not retried but emits `sessionInvalid`. -/
theorem submitActionsImpl_recovery_retry :
    (∀ (nonce : ℕ) (e : SubmitError) (fetched : Option ℕ) (k : ℕ),
        (e.incrementNonceEvent = some k → recoverNonce nonce e fetched = k) ∧
        (e.incrementNonceEvent = none → e.dbNonceHint = some k →
          recoverNonce nonce e fetched = k) ∧
        (e.incrementNonceEvent = none → e.dbNonceHint = none →
          recoverNonce nonce e fetched = fetched.getD nonce)) ∧
    (∀ (nonce : ℕ) (env : SubmitEnv) (e : SubmitError),
        env.outcome1 = AttemptOutcome.failure e →
        e.mentionsNonce = true → e.hasInvalidSession = false →
        (submitActionsImpl nonce env).attemptNonces =
          [nonce, recoverNonce nonce e env.fetched1] ∧
        (∀ f, env.outcome2 = AttemptOutcome.failure f →
          (submitActionsImpl nonce env).ok = false ∧
          (submitActionsImpl nonce env).thrown = some f) ∧
        (env.outcome2 = AttemptOutcome.success →
          (submitActionsImpl nonce env).ok = true)) ∧
    (∀ (nonce : ℕ) (env : SubmitEnv) (e : SubmitError),
        env.outcome1 = AttemptOutcome.failure e →
        e.hasInvalidSessionAddress = true → e.hasInvalidSession = true →
        (submitActionsImpl nonce env).attemptNonces = [nonce] ∧
        (submitActionsImpl nonce env).sessionInvalidEmitted = true ∧
        (submitActionsImpl nonce env).thrown = some e) := by
  refine ⟨?_, ?_, ?_⟩
  · intro nonce e fetched k
    refine ⟨fun h1 => ?_, fun h1 h2 => ?_, fun h1 h2 => ?_⟩
    · simp [recoverNonce, h1]
    · simp [recoverNonce, h1, h2]
    · simp [recoverNonce, h1, h2]
  · intro nonce env e h1 hm hs
    simp only [submitActionsImpl, h1, hm, hs]
    rcases h2 : env.outcome2 with _ | f <;>
      simp [submitActionsRetry, h2]
  · intro nonce env e h1 ha hs
    simp only [submitActionsImpl, h1, hs]
    simp [ha]

/-- Witness for C1: a first failure with no parsable nonce but a
nonce-conflict text is retried exactly once with the venue-queried
nonce. -/
theorem submitActionsImpl_recovery_retry_witness :
    (submitActionsImpl 0
        { outcome1 := AttemptOutcome.failure bareNonceErr
          outcome2 := AttemptOutcome.failure bareNonceErr
          fetched1 := some 4, fetched2 := none }).attemptNonces =
      [0, recoverNonce 0 bareNonceErr (some 4)] :=
  (submitActionsImpl_recovery_retry.2.1 0
    { outcome1 := AttemptOutcome.failure bareNonceErr
      outcome2 := AttemptOutcome.failure bareNonceErr
      fetched1 := some 4, fetched2 := none } bareNonceErr rfl rfl rfl).1

end O2Bot

namespace O2Bot

theorem findEarliestAux_spec (schedules : List MarketSchedule) :
    ∀ (acc : Option MarketSchedule) (s : MarketSchedule),
      findEarliestAux acc schedules = some s →
      (∀ t ∈ schedules, t.isActive = true → s.nextRunAt ≤ t.nextRunAt) ∧
      (∀ b, acc = some b → s.nextRunAt ≤ b.nextRunAt) ∧
      (acc = some s ∨ (s ∈ schedules ∧ s.isActive = true)) := by
  induction schedules with
  | nil =>
      intro acc s h
      simp only [findEarliestAux] at h
      subst h
      exact ⟨by simp, fun b hb => by simp_all, Or.inl rfl⟩
  | cons x rest ih =>
      intro acc s h
      simp only [findEarliestAux] at h
      by_cases hx : x.isActive = true
      · rw [if_neg (by simp [hx])] at h
        rcases acc with _ | best
        · obtain ⟨hrest, hacc', hmem⟩ := ih (some x) s h
          have hsx : s.nextRunAt ≤ x.nextRunAt := hacc' x rfl
          refine ⟨?_, ?_, ?_⟩
          · intro t ht hta
            rcases List.mem_cons.mp ht with rfl | ht'
            · exact hsx
            · exact hrest t ht' hta
          · intro b hb
            exact absurd hb (by simp)
          · rcases hmem with hxs | hmem'
            · injection hxs with hxs'
              subst hxs'
              exact Or.inr ⟨List.mem_cons_self _ _, hx⟩
            · exact Or.inr ⟨List.mem_cons_of_mem _ hmem'.1, hmem'.2⟩
        · have h' : (if x.nextRunAt < best.nextRunAt then
              findEarliestAux (some x) rest
              else findEarliestAux (some best) rest) = some s := h
          by_cases hlt : x.nextRunAt < best.nextRunAt
          · rw [if_pos hlt] at h'
            obtain ⟨hrest, hacc', hmem⟩ := ih (some x) s h'
            have hsx : s.nextRunAt ≤ x.nextRunAt := hacc' x rfl
            refine ⟨?_, ?_, ?_⟩
            · intro t ht hta
              rcases List.mem_cons.mp ht with rfl | ht'
              · exact hsx
              · exact hrest t ht' hta
            · intro b hb
              injection hb with hb'
              subst hb'
              exact le_trans hsx (le_of_lt hlt)
            · rcases hmem with hxs | hmem'
              · injection hxs with hxs'
                subst hxs'
                exact Or.inr ⟨List.mem_cons_self _ _, hx⟩
              · exact Or.inr ⟨List.mem_cons_of_mem _ hmem'.1, hmem'.2⟩
          · rw [if_neg hlt] at h'
            obtain ⟨hrest, hacc', hmem⟩ := ih (some best) s h'
            have hsb : s.nextRunAt ≤ best.nextRunAt := hacc' best rfl
            refine ⟨?_, ?_, ?_⟩
            · intro t ht hta
              rcases List.mem_cons.mp ht with rfl | ht'
              · exact le_trans hsb (not_lt.mp hlt)
              · exact hrest t ht' hta
            · intro b hb
              injection hb with hb'
              subst hb'
              exact hsb
            · rcases hmem with hbs | hmem'
              · exact Or.inl hbs
              · exact Or.inr ⟨List.mem_cons_of_mem _ hmem'.1, hmem'.2⟩
      · rw [if_pos (by simp [hx])] at h
        obtain ⟨hrest, hacc', hmem⟩ := ih acc s h
        refine ⟨?_, hacc', ?_⟩
        · intro t ht hta
          rcases List.mem_cons.mp ht with rfl | ht'
          · exact absurd hta hx
          · exact hrest t ht' hta
        · rcases hmem with hs | hmem'
          · exact Or.inl hs
          · exact Or.inr ⟨List.mem_cons_of_mem _ hmem'.1, hmem'.2⟩

theorem findEarliestAux_none_of_inactive (schedules : List MarketSchedule)
    (h : ∀ t ∈ schedules, t.isActive = false) :
    findEarliestAux none schedules = none := by
  induction schedules with
  | nil => rfl
  | cons x rest ih =>
      have hx : x.isActive = false := h x (List.mem_cons_self _ _)
      simp only [findEarliestAux]
      rw [if_pos (by simp [hx])]
      exact ih fun t ht => h t (List.mem_cons_of_mem _ ht)

end O2Bot

namespace O2Bot

/-- C8: the scheduler dispatches the active market with the smallest
next-run timestamp (1-second idle re-check when none is active), the
cycle's next-run timestamp is `start + min + r*(max-min)` with the
engine falling back to the same formula at completion time, and for
`r ∈ [0,1)` and `min ≤ max` the new timestamp lies in
`[now+min, now+max]`. -/
theorem scheduleNext_earliest_jitter :
    (∀ (schedules : List MarketSchedule) (now : ℚ) (s : MarketSchedule),
        findEarliest schedules = some s →
        scheduleNext schedules now =
          ScheduleDecision.dispatch s.marketId (max 0 (s.nextRunAt - now)) ∧
        s ∈ schedules ∧ s.isActive = true ∧
        ∀ t ∈ schedules, t.isActive = true → s.nextRunAt ≤ t.nextRunAt) ∧
    (∀ (schedules : List MarketSchedule) (now : ℚ),
        (∀ t ∈ schedules, t.isActive = false) →
        scheduleNext schedules now = ScheduleDecision.idle 1000) ∧
    (∀ (market : Market) (config : StrategyConfig) (env : ExecuteEnv),
        (execute market config env).nextRunAt = none ∨
        (execute market config env).nextRunAt =
          some (calculateNextRun env.now config.timing.cycleIntervalMinMs
            config.timing.cycleIntervalMaxMs env.randNext)) ∧
    (∀ (result : ExecutionResult) (config : StrategyConfig) (now random t : ℚ),
        result.nextRunAt = some t → t ≠ 0 →
        engineNextRunAt result config now random = t) ∧
    (∀ (result : ExecutionResult) (config : StrategyConfig) (now random : ℚ),
        result.nextRunAt = none →
        engineNextRunAt result config now random =
          calculateNextRun now config.timing.cycleIntervalMinMs
            config.timing.cycleIntervalMaxMs random) ∧
    (∀ (now mn mx r : ℚ), 0 ≤ r → r < 1 → mn ≤ mx →
        now + mn ≤ calculateNextRun now mn mx r ∧
        calculateNextRun now mn mx r ≤ now + mx) := by
  refine ⟨?_, ?_, ?_, ?_, ?_, ?_⟩
  · intro schedules now s h
    obtain ⟨hall, _, hmem⟩ := findEarliestAux_spec schedules none s h
    refine ⟨?_, ?_, ?_, hall⟩
    · simp only [scheduleNext, findEarliest] at h ⊢
      rw [h]
    · rcases hmem with hns | hmem'
      · exact absurd hns (by simp)
      · exact hmem'.1
    · rcases hmem with hns | hmem'
      · exact absurd hns (by simp)
      · exact hmem'.2
  · intro schedules now h
    simp only [scheduleNext, findEarliest]
    rw [findEarliestAux_none_of_inactive schedules h]
  · intro market config env
    simp only [execute]
    split
    · exact Or.inr rfl
    · split
      · exact Or.inr rfl
      · split
        · exact Or.inl rfl
        · split
          · exact Or.inr rfl
          · exact Or.inr rfl
  · intro result config now random t h ht
    simp [engineNextRunAt, h, ht]
  · intro result config now random h
    simp [engineNextRunAt, h]
  · intro now mn mx r h0 h1 hmn
    unfold calculateNextRun
    constructor
    · nlinarith
    · nlinarith

/-- C3: with the profit-floor toggle on, no tracked cost basis means no
sell is placed; with a non-zero average buy price and a computed sell
price below the floor `avg * (1 + takeProfitPercent/100)`, any placed
sell is a Spot limit at the (truncated) floor price even when the
configured order type is market.  Concretely `avgBuyPrice = 100`,
`takeProfitPercent = 0.02`, computed price `99.99` yield a Spot order
priced at `100.02` (scaled: 1000200). -/
theorem placeSellOrder_profit_floor :
    (∀ (market : Market) (config : StrategyConfig) (price : ℚ)
        (balances : MarketBalances),
        config.orderManagement.onlySellAboveBuyPrice = true →
        hasCostBasis config.averageBuyPrice = false →
        placeSellOrder market config price balances = none) ∧
    (∀ (market : Market) (config : StrategyConfig) (price : ℚ)
        (balances : MarketBalances) (a : ℚ) (intent : OrderIntent),
        config.orderManagement.onlySellAboveBuyPrice = true →
        config.averageBuyPrice = some a → a ≠ 0 →
        price < a * (1 + (config.riskManagement.takeProfitPercent.getD (2 / 100)) / 100) →
        placeSellOrder market config price balances = some intent →
        intent.orderType = "Spot" ∧
        intent.priceScaled = scaleUpAndTruncateToInt
          (a * (1 + (config.riskManagement.takeProfitPercent.getD (2 / 100)) / 100))
          market.quoteDecimals market.quoteMaxPrecision market.tickSize) ∧
    placeSellOrder sellMarket sellConfig (9999 / 100) sellBalances =
      some { side := "Sell", orderType := "Spot"
             priceScaled := 1000200, quantityScaled := 10000 } ∧
    (1000200 : ℚ) = (10002 / 100) * (10 : ℚ) ^ sellMarket.quoteDecimals := by
  refine ⟨?_, ?_, ?_, ?_⟩
  · intro market config price balances h1 h2
    simp [placeSellOrder, h1, h2]
  · intro market config price balances a intent h1 h2 h3 h4 hres
    have hcb : hasCostBasis (some a) = true := by simp [hasCostBasis, h3]
    simp only [placeSellOrder, h1, h2, hcb, Option.getD_some] at hres
    rw [if_pos h4] at hres
    simp only [not_true, and_false, true_and, and_true, if_false, ite_true,
      ite_false, Bool.not_eq_true] at hres
    split at hres
    · exact absurd hres (by simp)
    · split_ifs at hres with hq hmin
      simp only [Option.some.injEq] at hres
      subst hres
      exact ⟨rfl, rfl⟩
  · norm_num [placeSellOrder, sellConfig, sellMarket, sellBalances,
      baseStrategyConfig, basePositionSizing, baseOrderConfig, hasCostBasis,
      calculateOrderSize, capExceeded, isValidPrice, scaleUpAndTruncateToInt,
      scaleUpTruncNoTick, roundDownToMarketPrecision, roundDownByPrecision]
    norm_num [show (("percentageOfBalance" : String) = "fixedUsd") = False by simp,
      show (("sell" : String) = "buy") = False by simp]
  · norm_num [sellMarket]

/-- Witness for C3: the toggle on with no tracked cost basis places no
sell order. -/
theorem placeSellOrder_profit_floor_witness :
    placeSellOrder sellMarket { sellConfig with averageBuyPrice := none }
      (9999 / 100) sellBalances = none :=
  placeSellOrder_profit_floor.1 sellMarket
    { sellConfig with averageBuyPrice := none } (9999 / 100) sellBalances
    rfl rfl

/-- C4: with stop-loss enabled and a non-zero tracked average buy price,
the stop loss triggers exactly when the current price is strictly below
`avg * (1 - stopLossPercent/100)`; when triggered, the open orders are
cancelled and the market sell of the entire precision-rounded balance
plus the average-buy-price reset happen exactly when the
post-cancellation base balance is positive and its notional at the
current price meets the minimum order size — with a non-positive
balance or a below-minimum notional no sell is placed and no reset
occurs; a triggered stop loss makes the cycle return early (steps 3-9
bypassed).  Concretely price 94 with avg 100 and 5% triggers the full
liquidation and price 96 does nothing. -/
theorem checkStopLoss_threshold :
    (∀ (market : Market) (config : StrategyConfig) (last : ℚ)
        (bal : MarketBalances) (a : ℚ),
        config.riskManagement.stopLossEnabled = true →
        config.riskManagement.stopLossPercent ≠ 0 →
        config.averageBuyPrice = some a → a ≠ 0 →
        ((checkStopLoss market config (some last) bal).triggered = true ↔
          last / (10 : ℚ) ^ market.quoteDecimals <
            a * (1 - config.riskManagement.stopLossPercent / 100))) ∧
    (∀ (market : Market) (config : StrategyConfig) (last : ℚ)
        (bal : MarketBalances) (a : ℚ),
        config.riskManagement.stopLossEnabled = true →
        config.riskManagement.stopLossPercent ≠ 0 →
        config.averageBuyPrice = some a → a ≠ 0 →
        last / (10 : ℚ) ^ market.quoteDecimals <
          a * (1 - config.riskManagement.stopLossPercent / 100) →
        0 < bal.baseUnlocked / (10 : ℚ) ^ market.baseDecimals →
        ¬(bal.baseUnlocked / (10 : ℚ) ^ market.baseDecimals *
            (last / (10 : ℚ) ^ market.quoteDecimals) <
          config.positionSizing.minOrderSizeUsd) →
        checkStopLoss market config (some last) bal =
          { triggered := true, cancelledAllOrders := true
            sellOrder := some
              { side := "Sell", orderType := "Market"
                priceScaled := scaleUpAndTruncateToInt
                  (last / (10 : ℚ) ^ market.quoteDecimals) market.quoteDecimals
                  market.quoteMaxPrecision market.tickSize
                quantityScaled := roundDownToMarketPrecision
                  (bal.baseUnlocked / (10 : ℚ) ^ market.baseDecimals) market *
                  (10 : ℚ) ^ market.baseDecimals }
            avgBuyPriceReset := true }) ∧
    (∀ (market : Market) (config : StrategyConfig) (last : ℚ)
        (bal : MarketBalances) (a : ℚ),
        config.riskManagement.stopLossEnabled = true →
        config.riskManagement.stopLossPercent ≠ 0 →
        config.averageBuyPrice = some a → a ≠ 0 →
        last / (10 : ℚ) ^ market.quoteDecimals <
          a * (1 - config.riskManagement.stopLossPercent / 100) →
        (bal.baseUnlocked / (10 : ℚ) ^ market.baseDecimals ≤ 0 ∨
          bal.baseUnlocked / (10 : ℚ) ^ market.baseDecimals *
              (last / (10 : ℚ) ^ market.quoteDecimals) <
            config.positionSizing.minOrderSizeUsd) →
        checkStopLoss market config (some last) bal =
          { triggered := true, cancelledAllOrders := true
            sellOrder := none, avgBuyPriceReset := false }) ∧
    (∀ (market : Market) (config : StrategyConfig) (env : ExecuteEnv),
        ¬(config.riskManagement.maxSessionLossEnabled = true ∧
          0 < config.riskManagement.maxSessionLossUsd ∧
          env.realizedPnl < -config.riskManagement.maxSessionLossUsd) →
        (checkStopLoss market config env.tickerLastPrice
          env.balancesAfterCancel).triggered = true →
        execute market config env =
          { executed := (checkStopLoss market config env.tickerLastPrice
              env.balancesAfterCancel).sellOrder.isSome
            orders := (checkStopLoss market config env.tickerLastPrice
              env.balancesAfterCancel).sellOrder.toList
            nextRunAt := some (calculateNextRun env.now
              config.timing.cycleIntervalMinMs config.timing.cycleIntervalMaxMs
              env.randNext)
            skipReason := none
            cancelledAllOrders := (checkStopLoss market config env.tickerLastPrice
              env.balancesAfterCancel).cancelledAllOrders
            cancelledTimedOut := []
            avgBuyPriceReset := (checkStopLoss market config env.tickerLastPrice
              env.balancesAfterCancel).avgBuyPriceReset }) ∧
    checkStopLoss stopMarket stopConfig (some 9400) stopBalances =
      { triggered := true, cancelledAllOrders := true
        sellOrder := some { side := "Sell", orderType := "Market"
                            priceScaled := 9400, quantityScaled := 5000 }
        avgBuyPriceReset := true } ∧
    checkStopLoss stopMarket stopConfig (some 9600) stopBalances =
      { triggered := false, cancelledAllOrders := false
        sellOrder := none, avgBuyPriceReset := false } := by
  refine ⟨?_, ?_, ?_, ?_, ?_, ?_⟩
  · intro market config last bal a he hp h2 h3
    have hcb : hasCostBasis (some a) = true := by simp [hasCostBasis, h3]
    simp [checkStopLoss, he, hp, hcb, h2]
    by_cases hth : a * (1 - config.riskManagement.stopLossPercent / 100) ≤
        last / (10 : ℚ) ^ market.quoteDecimals
    · simp [hth, not_lt.mpr hth]
    · simp only [if_neg hth, not_le.mp hth, iff_true]
      split_ifs <;> simp
  · intro market config last bal a he hp h2 h3 hlt hbase hmin
    have hcb : hasCostBasis (some a) = true := by simp [hasCostBasis, h3]
    simp [checkStopLoss, he, hp, hcb, h2, not_le.mpr hlt, not_le.mpr hbase, hmin]
  · intro market config last bal a he hp h2 h3 hlt hskip
    have hcb : hasCostBasis (some a) = true := by simp [hasCostBasis, h3]
    rcases hskip with hb0 | hmin
    · simp [checkStopLoss, he, hp, hcb, h2, not_le.mpr hlt, hb0]
    · by_cases hb0 : bal.baseUnlocked / (10 : ℚ) ^ market.baseDecimals ≤ 0
      · simp [checkStopLoss, he, hp, hcb, h2, not_le.mpr hlt, hb0]
      · simp [checkStopLoss, he, hp, hcb, h2, not_le.mpr hlt, hb0, hmin]
  · intro market config env hsl htr
    simp only [execute]
    rw [if_neg hsl, if_pos htr]
  · norm_num [checkStopLoss, stopConfig, stopMarket, stopBalances,
      baseStrategyConfig, basePositionSizing, baseOrderConfig, hasCostBasis,
      roundDownToMarketPrecision, roundDownByPrecision,
      scaleUpAndTruncateToInt, scaleUpTruncNoTick]
  · norm_num [checkStopLoss, stopConfig, stopMarket, stopBalances,
      baseStrategyConfig, basePositionSizing, baseOrderConfig, hasCostBasis]

/-- Witness for C4: the trigger iff at the concrete inputs (price 94,
avg 100, 5%). -/
theorem checkStopLoss_threshold_witness :
    (checkStopLoss stopMarket stopConfig (some 9400) stopBalances).triggered = true ↔
      (9400 : ℚ) / (10 : ℚ) ^ stopMarket.quoteDecimals <
        100 * (1 - stopConfig.riskManagement.stopLossPercent / 100) :=
  checkStopLoss_threshold.1 stopMarket stopConfig 9400 stopBalances 100
    rfl (by norm_num [stopConfig, baseStrategyConfig]) rfl (by norm_num)

/-- C5 counterexample: order-timeout enabled at 1 minute with a stale
open order aged 2 minutes, but no per-side cap configured
(`maxOpenOrders = 0`): the cycle cancels nothing, because the timeout
sweep lives inside the `maxOpenOrders > 0` block. -/
theorem orderTimeout_without_cap_counterexample :
    timeoutConfig.riskManagement.orderTimeoutEnabled = true ∧
    0 < timeoutConfig.riskManagement.orderTimeoutMinutes ∧
    timeoutConfig.orderManagement.maxOpenOrders = 0 ∧
    timeoutConfig.riskManagement.orderTimeoutMinutes * 60 * 1000 <
      timeoutEnv.now - staleOrder.created_at ∧
    timeoutEnv.openOrders = [staleOrder] ∧
    (execute stopMarket timeoutConfig timeoutEnv).cancelledTimedOut = [] := by
  refine ⟨rfl, by norm_num [timeoutConfig, baseStrategyConfig], rfl,
    by norm_num [timeoutConfig, timeoutEnv, staleOrder, baseStrategyConfig], rfl, ?_⟩
  norm_num [execute, checkStopLoss, spreadGate, orderCountGate, calculatePrices,
    placeBuyOrder, placeSellOrder, calculateOrderSize, capExceeded, isValidPrice,
    hasCostBasis, calculateNextRun, timeoutConfig, timeoutEnv, staleOrder,
    stopMarket, baseStrategyConfig, basePositionSizing, baseOrderConfig]

/-- C5 (amended): when a per-side cap is configured
(`maxOpenOrders > 0`) and order-timeout is enabled with a positive
timeout, the order-count step cancels exactly the open orders older than
the timeout — independently of whether either side is at its cap — and
when `maxOpenOrders = 0` the timeout sweep does not run; when the cycle
reaches the order-count step its cancellations are those of that
sweep. -/
theorem orderCountGate_timeout_cancels :
    (∀ (config : StrategyConfig) (openOrders : List OpenOrder) (now : ℚ),
        config.orderManagement.maxOpenOrders ≠ 0 →
        config.riskManagement.orderTimeoutEnabled = true →
        0 < config.riskManagement.orderTimeoutMinutes →
        (orderCountGate config openOrders now).cancelledTimedOut =
          (openOrders.filter (fun o =>
            config.riskManagement.orderTimeoutMinutes * 60 * 1000 <
              now - o.created_at)).map (fun o => o.order_id)) ∧
    (∀ (config : StrategyConfig) (openOrders : List OpenOrder) (now : ℚ),
        config.orderManagement.maxOpenOrders = 0 →
        (orderCountGate config openOrders now).cancelledTimedOut = []) ∧
    (∀ (market : Market) (config : StrategyConfig) (env : ExecuteEnv) (last : ℚ),
        ¬(config.riskManagement.maxSessionLossEnabled = true ∧
          0 < config.riskManagement.maxSessionLossUsd ∧
          env.realizedPnl < -config.riskManagement.maxSessionLossUsd) →
        (checkStopLoss market config env.tickerLastPrice
          env.balancesAfterCancel).triggered = false →
        env.tickerLastPrice = some last →
        spreadGate market config env.orderBook = none →
        (execute market config env).cancelledTimedOut =
          (orderCountGate config env.openOrders env.now).cancelledTimedOut) := by
  refine ⟨?_, ?_, ?_⟩
  · intro config openOrders now h1 h2 h3
    simp [orderCountGate, h1, h2, h3]
  · intro config openOrders now h1
    simp [orderCountGate, h1]
  · intro market config env last hsl htr ht hsg
    simp only [execute]
    rw [if_neg hsl, if_neg (by simp [htr]), ht]
    dsimp only
    rw [hsg]

/-- Witness for C5's amended theorem: with a cap of 1 configured, the
2-minute-old order is cancelled by the sweep. -/
theorem orderCountGate_timeout_cancels_witness :
    (orderCountGate
        { timeoutConfig with
            orderManagement := { maxOpenOrders := 1, onlySellAboveBuyPrice := false } }
        [staleOrder] 120000).cancelledTimedOut =
      (([staleOrder] : List OpenOrder).filter (fun o =>
        ({ timeoutConfig with
            orderManagement :=
              { maxOpenOrders := 1, onlySellAboveBuyPrice := false }
          } : StrategyConfig).riskManagement.orderTimeoutMinutes * 60 * 1000 <
          120000 - o.created_at)).map (fun o => o.order_id) :=
  orderCountGate_timeout_cancels.1
    { timeoutConfig with
        orderManagement := { maxOpenOrders := 1, onlySellAboveBuyPrice := false } }
    [staleOrder] 120000 (by norm_num) rfl
    (by norm_num [timeoutConfig, baseStrategyConfig])

theorem calculateEffectiveSpread_insufficient (ob : OrderBook) (market : Market)
    (sizeUsd : ℚ) (res : SpreadResult)
    (hres : calculateEffectiveSpread ob market sizeUsd = some res)
    (hthin : res.insufficientLiquidity = true) :
    res.spread = 999 ∧
    (calculateVWAP ob.bids (sizeUsd / res.midPrice) market.quoteDecimals
        market.baseDecimals = none ∨
      calculateVWAP ob.asks (sizeUsd / res.midPrice) market.quoteDecimals
        market.baseDecimals = none) := by
  rcases hb : ob.bids with _ | ⟨bb, bt⟩ <;> rcases ha : ob.asks with _ | ⟨aa, at'⟩ <;>
    simp only [calculateEffectiveSpread, hb, ha] at hres
  · exact absurd hres (by simp)
  · exact absurd hres (by simp)
  · exact absurd hres (by simp)
  · rcases hvb : calculateVWAP (bb :: bt)
        (sizeUsd / ((bb.1 / (10 : ℚ) ^ market.quoteDecimals +
          aa.1 / (10 : ℚ) ^ market.quoteDecimals) / 2))
        market.quoteDecimals market.baseDecimals with _ | effBid <;>
      rcases hva : calculateVWAP (aa :: at')
        (sizeUsd / ((bb.1 / (10 : ℚ) ^ market.quoteDecimals +
          aa.1 / (10 : ℚ) ^ market.quoteDecimals) / 2))
        market.quoteDecimals market.baseDecimals with _ | effAsk <;>
      rw [hvb, hva] at hres <;>
      simp only [Option.some.injEq] at hres <;> subst hres
    · exact ⟨rfl, Or.inl hvb⟩
    · exact ⟨rfl, Or.inl hvb⟩
    · exact ⟨rfl, Or.inr hva⟩
    · simp at hthin

/-- C6 (amended): the effective spread is computed from the two side
VWAPs for the reference order size; when either side cannot fill that
size the result is flagged insufficient liquidity with the sentinel
spread 999 — so the gate rejects it, with the dedicated skip reason,
for every configured maximum spread below 999 — and a book that fills
both sides is never classified insufficient.  The thin fixture book is
classified insufficient and skipped at a 50% maximum. -/
theorem spreadGate_depth_aware :
    (∀ (ob : OrderBook) (market : Market) (sizeUsd : ℚ) (res : SpreadResult),
        calculateEffectiveSpread ob market sizeUsd = some res →
        res.insufficientLiquidity = false →
        ∃ effBid effAsk,
          calculateVWAP ob.bids (sizeUsd / res.midPrice) market.quoteDecimals
            market.baseDecimals = some effBid ∧
          calculateVWAP ob.asks (sizeUsd / res.midPrice) market.quoteDecimals
            market.baseDecimals = some effAsk ∧
          res.spread = (effAsk - effBid) / res.midPrice * 100) ∧
    (∀ (ob : OrderBook) (market : Market) (sizeUsd : ℚ) (res : SpreadResult),
        calculateEffectiveSpread ob market sizeUsd = some res →
        res.insufficientLiquidity = true →
        res.spread = 999 ∧
        (calculateVWAP ob.bids (sizeUsd / res.midPrice) market.quoteDecimals
            market.baseDecimals = none ∨
          calculateVWAP ob.asks (sizeUsd / res.midPrice) market.quoteDecimals
            market.baseDecimals = none)) ∧
    (∀ (market : Market) (config : StrategyConfig) (ob : OrderBook)
        (res : SpreadResult),
        0 < config.orderConfig.maxSpreadPercent →
        config.orderConfig.maxSpreadPercent < 999 →
        calculateEffectiveSpread ob market
          (if config.positionSizing.minOrderSizeUsd ≠ 0 then
            config.positionSizing.minOrderSizeUsd else 5) = some res →
        res.insufficientLiquidity = true →
        spreadGate market config (some ob) =
          some SkipReason.insufficientLiquidity) ∧
    (∀ (market : Market) (config : StrategyConfig) (ob : OrderBook)
        (res : SpreadResult),
        calculateEffectiveSpread ob market
          (if config.positionSizing.minOrderSizeUsd ≠ 0 then
            config.positionSizing.minOrderSizeUsd else 5) = some res →
        res.insufficientLiquidity = false →
        spreadGate market config (some ob) ≠
          some SkipReason.insufficientLiquidity) ∧
    (calculateEffectiveSpread thinBook stopMarket 5).map
      (fun r => (r.insufficientLiquidity, r.spread)) = some (true, 999) ∧
    spreadGate stopMarket narrowSpreadConfig (some thinBook) =
      some SkipReason.insufficientLiquidity := by
  refine ⟨?_, ?_, ?_, ?_, ?_, ?_⟩
  · intro ob market sizeUsd res hres hfull
    rcases hb : ob.bids with _ | ⟨bb, bt⟩ <;> rcases ha : ob.asks with _ | ⟨aa, at'⟩ <;>
      simp only [calculateEffectiveSpread, hb, ha] at hres
    · exact absurd hres (by simp)
    · exact absurd hres (by simp)
    · exact absurd hres (by simp)
    · rcases hvb : calculateVWAP (bb :: bt)
          (sizeUsd / ((bb.1 / (10 : ℚ) ^ market.quoteDecimals +
            aa.1 / (10 : ℚ) ^ market.quoteDecimals) / 2))
          market.quoteDecimals market.baseDecimals with _ | effBid <;>
        rcases hva : calculateVWAP (aa :: at')
          (sizeUsd / ((bb.1 / (10 : ℚ) ^ market.quoteDecimals +
            aa.1 / (10 : ℚ) ^ market.quoteDecimals) / 2))
          market.quoteDecimals market.baseDecimals with _ | effAsk <;>
        rw [hvb, hva] at hres <;>
        simp only [Option.some.injEq] at hres <;> subst hres
      · simp at hfull
      · simp at hfull
      · simp at hfull
      · exact ⟨effBid, effAsk, hvb, hva, rfl⟩
  · exact calculateEffectiveSpread_insufficient
  · intro market config ob res hmax hmax999 hres hthin
    have h999 : res.spread = 999 :=
      (calculateEffectiveSpread_insufficient ob market _ res hres hthin).1
    simp only [spreadGate, if_pos hmax]
    rw [hres]
    dsimp only
    rw [if_pos (show config.orderConfig.maxSpreadPercent < res.spread by
      rw [h999]; exact hmax999)]
    rw [if_pos hthin]
  · intro market config ob res hres hfull
    simp only [spreadGate]
    by_cases hmax : 0 < config.orderConfig.maxSpreadPercent
    · rw [if_pos hmax]
      rw [hres]
      dsimp only
      split_ifs with hexceed hthin h11 <;> simp_all
    · rw [if_neg hmax]
      simp
  · norm_num [calculateEffectiveSpread, calculateVWAP, vwapWalk, thinBook,
      stopMarket, min_def]
  · norm_num [spreadGate, calculateEffectiveSpread, calculateVWAP, vwapWalk,
      thinBook, stopMarket, narrowSpreadConfig, baseStrategyConfig,
      basePositionSizing, baseOrderConfig, min_def]

/-- Witness for C6's amended theorem: the gate applied to the thin book
at a configured maximum of 50% skips with the insufficient-liquidity
reason. -/
theorem spreadGate_depth_aware_witness :
    spreadGate stopMarket narrowSpreadConfig (some thinBook) =
      some SkipReason.insufficientLiquidity :=
  spreadGate_depth_aware.2.2.1 stopMarket narrowSpreadConfig thinBook
    { spread := 999, effectiveBid := 100, effectiveAsk := 101
      midPrice := 201 / 2, topOfBookSpread := 200 / 201
      insufficientLiquidity := true }
    (by norm_num [narrowSpreadConfig, baseStrategyConfig, baseOrderConfig])
    (by norm_num [narrowSpreadConfig, baseStrategyConfig, baseOrderConfig])
    (by norm_num [calculateEffectiveSpread, calculateVWAP, vwapWalk, thinBook,
      stopMarket, narrowSpreadConfig, baseStrategyConfig, basePositionSizing,
      baseOrderConfig, min_def])
    rfl

/-- C6 counterexample: the thin book is classified insufficient
liquidity (sentinel spread 999), yet with a configured maximum spread of
1000 the gate does not reject and the cycle proceeds with no skip
reason — the claim's "rejected for every configured maximum spread
value" fails at 1000. -/
theorem spreadGate_insufficient_not_always_rejected :
    (calculateEffectiveSpread thinBook stopMarket 5).map
      SpreadResult.insufficientLiquidity = some true ∧
    0 < wideSpreadConfig.orderConfig.maxSpreadPercent ∧
    spreadGate stopMarket wideSpreadConfig (some thinBook) = none ∧
    (execute stopMarket wideSpreadConfig spreadEnv).skipReason = none := by
  refine ⟨?_, by norm_num [wideSpreadConfig, baseStrategyConfig, baseOrderConfig],
    ?_, ?_⟩
  · norm_num [calculateEffectiveSpread, calculateVWAP, vwapWalk, thinBook,
      stopMarket, min_def]
  · norm_num [spreadGate, calculateEffectiveSpread, calculateVWAP, vwapWalk,
      thinBook, stopMarket, wideSpreadConfig, baseStrategyConfig,
      basePositionSizing, baseOrderConfig, min_def]
  · norm_num [execute, checkStopLoss, spreadGate, calculateEffectiveSpread,
      calculateVWAP, vwapWalk, orderCountGate, calculatePrices, placeBuyOrder,
      placeSellOrder, calculateOrderSize, capExceeded, isValidPrice,
      hasCostBasis, calculateNextRun, thinBook, stopMarket, wideSpreadConfig,
      spreadEnv, baseStrategyConfig, basePositionSizing, baseOrderConfig,
      min_def]

/-- Witness for C8: with three active markets due at 300, 100, 200 the
scheduler dispatches market 2 (due at 100), and a draw of `1/2` lands
the next run inside `[now+min, now+max]`. -/
theorem scheduleNext_earliest_jitter_witness :
    scheduleNext [schedA, schedB, schedC] 0 =
      ScheduleDecision.dispatch schedB.marketId (max 0 (schedB.nextRunAt - 0)) ∧
    ((0 : ℚ) + 60000 ≤ calculateNextRun 0 60000 120000 (1 / 2) ∧
      calculateNextRun 0 60000 120000 (1 / 2) ≤ (0 : ℚ) + 120000) :=
  ⟨(scheduleNext_earliest_jitter.1 [schedA, schedB, schedC] 0 schedB
      (by norm_num [findEarliest, findEarliestAux, schedA, schedB, schedC])).1,
   scheduleNext_earliest_jitter.2.2.2.2.2 0 60000 120000 (1 / 2)
      (by norm_num) (by norm_num) (by norm_num)⟩

end O2Bot
